import Mathlib

/-
Verification of the session-orchestration layer of the text-adventure MCP
server (testing_submission/mcp_server.py).  The game engine is opaque: it is
modelled as a state type sigma together with a step function
`sigma → String → Except String (sigma × Transition)`; an `Except.error`
models a raised exception inside the engine call.  All string manipulation
mirrors the Python operations (strip, split, lower, index, startswith) on
character lists.
-/

set_option maxRecDepth 10000

deriving instance DecidableEq for Except

namespace ZorkMCP

/-- One engine transition, as produced by `env.reset()` / `env.step(action)`. -/
structure Transition where
  observation : String
  score : Int
  moves : Nat
  reward : Int
  done : Bool
  inventory : List String
deriving DecidableEq

/-- ASCII whitespace as recognised by Python str.strip. -/
def isPySpace (c : Char) : Bool :=
  c = ' ' || c = '\t' || c = '\n' || c = '\r' || c = '\x0b' || c = '\x0c'

/-- Python str.strip on a character list. -/
def pyStrip (cs : List Char) : List Char :=
  ((cs.dropWhile isPySpace).reverse.dropWhile isPySpace).reverse

/-- Python split(sep) for a single-character separator. -/
def splitChar (c : Char) : List Char → List (List Char)
  | [] => [[]]
  | a :: rest =>
    if a = c then [] :: splitChar c rest
    else
      match splitChar c rest with
      | [] => [[a]]
      | h :: t => (a :: h) :: t

/-- `_extract_location`: first line of the whole-string-stripped observation
(mcp_server.py lines 42-45); the `"Unknown"` branch mirrors `if lines`. -/
def extract_location (observation : String) : String :=
  match splitChar '\n' (pyStrip observation.data) with
  | [] => "Unknown"
  | l :: _ => ⟨l⟩

/-- First index at which `pat` occurs as a contiguous substring
(Python `str.index`), or `none` when `pat not in s`. -/
def subIndex (pat : List Char) : List Char → Option Nat
  | [] => if pat.isPrefixOf [] then some 0 else none
  | c :: cs =>
    if pat.isPrefixOf (c :: cs) then some 0
    else (subIndex pat cs).map (· + 1)

/-- The per-item display-name heuristic from `get_inventory`
(mcp_server.py lines 108-121). -/
def parse_item (item_str : String) : String :=
  let cs := item_str.data
  let item_lower := cs.map Char.toLower
  match subIndex ("parent".data) item_lower with
  | some idx =>
    let name := pyStrip (cs.take idx)
    if name.contains ':' then ⟨pyStrip ((name.dropWhile (fun a => a != ':')).drop 1)⟩
    else ⟨name⟩
  | none =>
    if cs.contains ':' then ⟨pyStrip ((splitChar ':' cs).getD 1 [])⟩
    else item_str

/-- The movement-action vocabulary checked by `take_action`
(mcp_server.py lines 59-60). -/
def movementActions : List String :=
  ["north", "south", "east", "west", "up", "down",
   "enter", "exit", "n", "s", "e", "w", "u", "d"]

/-- Lookup in an insertion-ordered dictionary (Python dict). -/
def dictLookup {α : Type} : List (String × α) → String → Option α
  | [], _ => none
  | (k, v) :: rest, key => if k = key then some v else dictLookup rest key

/-- Python dict assignment `d[k] = v`: overwrite in place or append. -/
def dictInsert {α : Type} (d : List (String × α)) (k : String) (v : α) :
    List (String × α) :=
  if (dictLookup d k).isSome then d.map (fun p => if p.1 = k then (k, v) else p)
  else d ++ [(k, v)]

/-- `explored_locations[cur] = set()` executed only when the key is absent. -/
def graphEnsure (G : List (String × List String)) (k : String) :
    List (String × List String) :=
  if (dictLookup G k).isSome then G else G ++ [(k, [])]

/-- `explored_locations[cur].add(edge)`: set insertion under key `k`. -/
def graphAdd (G : List (String × List String)) (k v : String) :
    List (String × List String) :=
  G.map (fun p => if p.1 = k then (p.1, if p.2.contains v then p.2 else p.2 ++ [v]) else p)

/-- Insert into a list sorted by `lt`, keeping equal elements stable. -/
def sortedInsert {α : Type} (lt : α → α → Bool) (a : α) : List α → List α
  | [] => [a]
  | b :: bs => if lt b a then b :: sortedInsert lt a bs else a :: b :: bs

/-- Python `sorted` (ascending, stable), as a structural insertion sort. -/
def pySorted {α : Type} (lt : α → α → Bool) : List α → List α
  | [] => []
  | x :: xs => sortedInsert lt x (pySorted lt xs)

/-- The mutable session state owned by the Python `GameState` object. -/
structure GameState (σ : Type) where
  env : σ
  state : Transition
  history : List (String × String)
  explored_locations : List (String × List String)
  current_location : String
  saved_states : List (String × σ)
deriving DecidableEq

/-- `GameState.__init__` once `env.reset()` has produced transition `t0`
and left the engine in state `e`. -/
def initSession {σ : Type} (t0 : Transition) (e : σ) : GameState σ :=
  { env := e, state := t0, history := [], explored_locations := [],
    current_location := extract_location t0.observation, saved_states := [] }

/-- The last `n` elements of a list (Python `l[-n:]`). -/
def lastN {α : Type} (n : Nat) (l : List α) : List α := l.drop (l.length - n)

/-- `GameState.take_action` (mcp_server.py lines 47-67).  A raised engine
exception propagates as `Except.error`. -/
def take_action {σ : Type} (stepE : σ → String → Except String (σ × Transition))
    (g : GameState σ) (action : String) : Except String (GameState σ × String) :=
  match stepE g.env action with
  | .error e => .error e
  | .ok (e2, t) =>
    let result := t.observation
    let h1 := g.history ++ [(action, result)]
    let h2 := if 50 < h1.length then lastN 50 h1 else h1
    let new_location := extract_location result
    let ex :=
      if movementActions.contains action then
        let exE := graphEnsure g.explored_locations g.current_location
        if new_location = g.current_location then exE
        else graphAdd exE g.current_location (action ++ " -> " ++ new_location)
      else g.explored_locations
    .ok ({ g with
            env := e2, state := t, history := h2,
            explored_locations := ex, current_location := new_location }, result)

/-- `GameState.get_map` (mcp_server.py lines 86-98). -/
def get_map {σ : Type} (g : GameState σ) : String :=
  if g.explored_locations.isEmpty then
    "Map: No locations explored yet. Try moving around!"
  else
    let sortedLocs := pySorted (fun p q => decide (p.1 < q.1)) g.explored_locations
    let body := (sortedLocs.map (fun p =>
      ("\n* " ++ p.1) ::
        (pySorted (fun a b => decide (a < b)) p.2).map (fun e => "    -> " ++ e))).flatten
    String.intercalate "\n"
      ((["Explored Locations and Exits:"] ++ body) ++ ["\n[Current] " ++ g.current_location])

/-- `GameState.get_inventory` (mcp_server.py lines 100-123). -/
def get_inventory {σ : Type} (g : GameState σ) : String :=
  if g.state.inventory.isEmpty then "Inventory: You are empty-handed."
  else "Inventory: " ++ String.intercalate ", " (g.state.inventory.map parse_item)

/-- `GameState.check_vocabulary` (mcp_server.py lines 135-148) with the
engine dictionary already fetched. -/
def check_vocabulary (vocab : List String) (word : String) : String :=
  let word_lower := word.data.map Char.toLower
  let pre6 := word_lower.take 6
  let found := vocab.filter (fun w => pre6.isPrefixOf w.data)
  if found.isEmpty then
    "No, the game does NOT understand the word \x27" ++ word ++
      "\x27. Try a different synonym."
  else
    "Yes, the game understands \x27" ++ word ++ "\x27 (matches: " ++
      String.intercalate ", " found ++ ")."

/-- `GameState.save_game` (mcp_server.py lines 150-156); `env.get_state()`
is modelled as returning the opaque engine state itself. -/
def save_game {σ : Type} (g : GameState σ) (slot_name : String) : GameState σ × String :=
  ({ g with saved_states := dictInsert g.saved_states slot_name g.env },
   "Game saved successfully to slot: \x27" ++ slot_name ++ "\x27")

/-- `GameState.load_game` (mcp_server.py lines 158-169).  The try/except
catches a failing synchronizing look step and returns error text; after
`set_state` the engine already holds the restored snapshot. -/
def load_game {σ : Type} (stepE : σ → String → Except String (σ × Transition))
    (g : GameState σ) (slot_name : String) : Except String (GameState σ × String) :=
  match dictLookup g.saved_states slot_name with
  | none => .ok (g, "Error: No save found in slot \x27" ++ slot_name ++ "\x27")
  | some saved =>
    match stepE saved "look" with
    | .error e =>
      .ok ({ g with env := saved },
        "Error loading game from slot \x27" ++ slot_name ++ "\x27: " ++ e)
    | .ok (e2, t) =>
      .ok ({ g with
              env := e2, state := t,
              current_location := extract_location t.observation },
        "Game loaded from slot: \x27" ++ slot_name ++ "\x27.\nCurrent location: " ++
          t.observation)

/-- A whole sequence of `take_action` calls, stopping at the first raised
engine failure. -/
def runActions {σ : Type} (stepE : σ → String → Except String (σ × Transition)) :
    GameState σ → List String → Except String (GameState σ)
  | g, [] => .ok g
  | g, a :: rest =>
    match take_action stepE g a with
    | .error e => .error e
    | .ok (g2, _) => runActions stepE g2 rest

/-- A scripted engine: its state is the list of transitions still to be
served, one per step call, independent of the action text. -/
def scriptStep : List Transition → String → Except String (List Transition × Transition)
  | [], _ => .error "script exhausted"
  | t :: ts, _ => .ok (ts, t)

/-- The location rule as the spec words it: the first non-empty line of the
observation, trimmed of surrounding whitespace. -/
def specDerivedLocation (s : String) : String :=
  match (splitChar '\n' s.data).filter (fun l => !(pyStrip l).isEmpty) with
  | [] => ""
  | l :: _ => ⟨pyStrip l⟩

/-- The colon rule as the spec words it: all the text after the first
colon, trimmed of surrounding whitespace. -/
def specColonName (s : String) : String :=
  ⟨pyStrip ((s.data.dropWhile (fun a => a != ':')).drop 1)⟩

/-- A minimal transition carrying only an observation. -/
def mkT (obs : String) : Transition :=
  { observation := obs, score := 0, moves := 0, reward := 0, done := false,
    inventory := [] }

theorem lastN_of_le {α : Type} {n : Nat} {l : List α} (h : l.length ≤ n) :
    lastN n l = l := by
  unfold lastN
  rw [Nat.sub_eq_zero_of_le h, List.drop_zero]

theorem length_lastN {α : Type} (n : Nat) (l : List α) :
    (lastN n l).length = min l.length n := by
  unfold lastN
  rw [List.length_drop]
  omega

theorem lastN_append_lastN {α : Type} (n : Nat) (x y : List α) :
    lastN n (lastN n x ++ y) = lastN n (x ++ y) := by
  unfold lastN
  rw [← List.drop_append_of_le_length (Nat.sub_le _ _), List.drop_drop]
  congr 1
  simp only [List.length_drop, List.length_append]
  omega

theorem trim_eq_lastN (l : List (String × String)) :
    (if 50 < l.length then lastN 50 l else l) = lastN 50 l := by
  by_cases h : 50 < l.length
  · rw [if_pos h]
  · rw [if_neg h, lastN_of_le (by omega)]

/-- The successor session state after a successful engine step inside
`take_action`. -/
def stepState {σ : Type} (g : GameState σ) (action : String) (e2 : σ)
    (t : Transition) : GameState σ :=
  { g with
      env := e2, state := t,
      history := lastN 50 (g.history ++ [(action, t.observation)]),
      explored_locations :=
        if movementActions.contains action then
          if extract_location t.observation = g.current_location then
            graphEnsure g.explored_locations g.current_location
          else
            graphAdd (graphEnsure g.explored_locations g.current_location)
              g.current_location (action ++ " -> " ++ extract_location t.observation)
        else g.explored_locations,
      current_location := extract_location t.observation }

theorem take_action_ok {σ : Type} (stepE : σ → String → Except String (σ × Transition))
    (g : GameState σ) (a : String) (e2 : σ) (t : Transition)
    (h : stepE g.env a = .ok (e2, t)) :
    take_action stepE g a = .ok (stepState g a e2 t, t.observation) := by
  simp only [take_action, h, trim_eq_lastN, stepState]

theorem runActions_script_history (as : List String) :
    ∀ (ts : List Transition) (g : GameState (List Transition)),
      g.env = ts → as.length ≤ ts.length → g.history.length ≤ 50 →
      ∃ g2, runActions scriptStep g as = .ok g2 ∧
        g2.history = lastN 50 (g.history ++ as.zip (ts.map Transition.observation)) := by
  induction as with
  | nil =>
    intro ts g _ _ hh
    exact ⟨g, rfl, by simp [lastN_of_le hh]⟩
  | cons a rest ih =>
    intro ts g hg hlen hh
    cases ts with
    | nil => simp at hlen
    | cons t ts2 =>
      have hstep : scriptStep g.env a = .ok (ts2, t) := by rw [hg]; rfl
      simp only [runActions, take_action_ok scriptStep g a ts2 t hstep]
      obtain ⟨g2, hrun, hhist⟩ := ih ts2 (stepState g a ts2 t) rfl
        (by simp only [List.length_cons] at hlen; omega)
        (by simp only [stepState, length_lastN]; omega)
      refine ⟨g2, hrun, ?_⟩
      rw [hhist]
      simp only [stepState]
      rw [lastN_append_lastN, List.map_cons, List.zip_cons_cons, List.append_assoc]
      rfl

/-- Claim C1: for every sequence of n takeAction calls on a fresh session,
the history afterwards holds exactly min(n, 50) (action, result) entries,
namely those of the most recent min(n, 50) actions, in the order they were
taken; once more than 50 actions have been taken, the oldest entries are
discarded first. -/
theorem history_window (t0 : Transition) (ts : List Transition) (as : List String)
    (h : as.length ≤ ts.length) :
    ∃ g, runActions scriptStep (initSession t0 ts) as = .ok g ∧
      g.history = lastN 50 (as.zip (ts.map Transition.observation)) ∧
      g.history.length = min as.length 50 := by
  obtain ⟨g, hrun, hhist⟩ :=
    runActions_script_history as ts (initSession t0 ts) rfl h (by simp [initSession])
  refine ⟨g, hrun, ?_, ?_⟩
  · simpa [initSession] using hhist
  · rw [hhist]
    simp only [initSession, List.nil_append, length_lastN, List.length_zip,
      List.length_map]
    omega

/-- Witness for C1 at a concrete one-action run. -/
theorem history_window_witness :
    (["north"].length ≤ [mkT "Kitchen"].length) ∧
    (∃ g, runActions scriptStep (initSession (mkT "West of House") [mkT "Kitchen"])
        ["north"] = .ok g ∧
      g.history = lastN 50 (["north"].zip ([mkT "Kitchen"].map Transition.observation)) ∧
      g.history.length = min ["north"].length 50) :=
  ⟨by decide,
   history_window (mkT "West of House") [mkT "Kitchen"] ["north"] (by decide)⟩

theorem load_game_missing {σ : Type}
    (stepE : σ → String → Except String (σ × Transition)) (g : GameState σ)
    (slot : String) (h : dictLookup g.saved_states slot = none) :
    load_game stepE g slot =
      .ok (g, "Error: No save found in slot \x27" ++ slot ++ "\x27") := by
  unfold load_game
  rw [h]

theorem load_game_fail {σ : Type}
    (stepE : σ → String → Except String (σ × Transition)) (g : GameState σ)
    (slot : String) (saved : σ) (h1 : dictLookup g.saved_states slot = some saved)
    (e : String) (h2 : stepE saved "look" = .error e) :
    load_game stepE g slot =
      .ok ({ g with env := saved },
        "Error loading game from slot \x27" ++ slot ++ "\x27: " ++ e) := by
  unfold load_game
  rw [h1]
  simp only [h2]

theorem load_game_ok {σ : Type}
    (stepE : σ → String → Except String (σ × Transition)) (g : GameState σ)
    (slot : String) (saved : σ) (h1 : dictLookup g.saved_states slot = some saved)
    (e3 : σ) (t3 : Transition) (h2 : stepE saved "look" = .ok (e3, t3)) :
    load_game stepE g slot =
      .ok ({ g with
              env := e3, state := t3,
              current_location := extract_location t3.observation },
        "Game loaded from slot: \x27" ++ slot ++ "\x27.\nCurrent location: " ++
          t3.observation) := by
  unfold load_game
  rw [h1]
  simp only [h2]

theorem dictLookup_append {α : Type} (d1 d2 : List (String × α)) (k : String) :
    dictLookup (d1 ++ d2) k = (dictLookup d1 k).or (dictLookup d2 k) := by
  induction d1 with
  | nil => simp [dictLookup]
  | cons p rest ih =>
    obtain ⟨k1, v1⟩ := p
    by_cases h1 : k1 = k
    · simp [dictLookup, h1, Option.or]
    · simp [dictLookup, h1, ih]

theorem dictLookup_graphEnsure_self (G : List (String × List String)) (k : String) :
    dictLookup (graphEnsure G k) k = some ((dictLookup G k).getD []) := by
  unfold graphEnsure
  cases h : dictLookup G k with
  | some v => simp [h]
  | none => simp [h, dictLookup_append, dictLookup]

theorem dictLookup_graphEnsure_ne (G : List (String × List String)) (k k' : String)
    (h : k' ≠ k) : dictLookup (graphEnsure G k) k' = dictLookup G k' := by
  unfold graphEnsure
  cases hk : dictLookup G k with
  | some v => simp
  | none =>
    have hne : ¬ (k = k') := fun hh => h hh.symm
    simp [dictLookup_append, dictLookup, hne, Option.or_none]

theorem dictLookup_cons {α : Type} (k1 : String) (v1 : α) (rest : List (String × α))
    (key : String) :
    dictLookup ((k1, v1) :: rest) key =
      if k1 = key then some v1 else dictLookup rest key := rfl

theorem dictLookup_graphAdd (G : List (String × List String)) (k v k' : String) :
    dictLookup (graphAdd G k v) k' =
      if k' = k then
        (dictLookup G k).map (fun es => if es.contains v then es else es ++ [v])
      else dictLookup G k' := by
  induction G with
  | nil =>
    by_cases h : k' = k
    · rw [if_pos h]; rfl
    · rw [if_neg h]; rfl
  | cons p rest ih =>
    obtain ⟨k1, es⟩ := p
    have hcons : graphAdd ((k1, es) :: rest) k v =
        (if k1 = k then (k1, if es.contains v then es else es ++ [v]) else (k1, es)) ::
          graphAdd rest k v := rfl
    rw [hcons]
    by_cases h1 : k1 = k
    · rw [if_pos h1, dictLookup_cons]
      by_cases h2 : k1 = k'
      · rw [if_pos h2]
        rw [if_pos (h2.symm.trans h1)]
        rw [dictLookup_cons]
        rw [if_pos h1]
        rfl
      · rw [if_neg h2, ih]
        by_cases h3 : k' = k
        · exact absurd (h1.trans h3.symm) h2
        · rw [if_neg h3, if_neg h3, dictLookup_cons, if_neg h2]
    · rw [if_neg h1, dictLookup_cons]
      by_cases h2 : k1 = k'
      · rw [if_pos h2]
        rw [if_neg (fun hh : k' = k => h1 (h2.trans hh))]
        rw [dictLookup_cons]
        rw [if_pos h2]
      · rw [if_neg h2, ih]
        by_cases h3 : k' = k
        · rw [if_pos h3, if_pos h3, dictLookup_cons, if_neg h1]
        · rw [if_neg h3, if_neg h3, dictLookup_cons, if_neg h2]

/-- An edge `v` is recorded under location key `k` of the exploration graph. -/
def hasEdge (G : List (String × List String)) (k v : String) : Prop :=
  ∃ es, dictLookup G k = some es ∧ v ∈ es

/-- Every recorded edge set is duplicate-free. -/
def edgesNodup (G : List (String × List String)) : Prop :=
  ∀ k es, dictLookup G k = some es → es.Nodup

theorem hasEdge_graphEnsure (G : List (String × List String)) (k0 k v : String) :
    hasEdge (graphEnsure G k0) k v ↔ hasEdge G k v := by
  unfold hasEdge
  by_cases h : k = k0
  · subst h
    rw [dictLookup_graphEnsure_self]
    cases hk : dictLookup G k with
    | some es => simp [hk]
    | none => simp [hk]
  · rw [dictLookup_graphEnsure_ne _ _ _ h]

theorem mem_setAdd (es : List String) (v0 v : String) :
    (v ∈ (if es.contains v0 then es else es ++ [v0])) ↔ (v ∈ es ∨ v = v0) := by
  by_cases hc : es.contains v0
  · rw [if_pos hc]
    constructor
    · exact Or.inl
    · rintro (hm | hm)
      · exact hm
      · exact hm ▸ List.elem_iff.mp hc
  · rw [if_neg hc, List.mem_append, List.mem_singleton]

theorem hasEdge_graphAdd (G : List (String × List String)) (k0 v0 k v : String)
    (hsome : (dictLookup G k0).isSome) :
    hasEdge (graphAdd G k0 v0) k v ↔
      (hasEdge G k v ∨ (k = k0 ∧ v = v0)) := by
  unfold hasEdge
  rw [dictLookup_graphAdd]
  by_cases h : k = k0
  · rw [if_pos h]
    subst h
    obtain ⟨es, hk⟩ := Option.isSome_iff_exists.mp hsome
    rw [hk]
    constructor
    · rintro ⟨es2, he2, hv⟩
      have he3 : some (if es.contains v0 then es else es ++ [v0]) = some es2 := he2
      rw [Option.some.injEq] at he3
      subst he3
      rcases (mem_setAdd es v0 v).mp hv with hm | hm
      · exact Or.inl ⟨es, rfl, hm⟩
      · exact Or.inr ⟨rfl, hm⟩
    · rintro (⟨es2, he2, hv⟩ | ⟨-, hv⟩)
      · rw [Option.some.injEq] at he2
        subst he2
        exact ⟨_, rfl, (mem_setAdd es v0 v).mpr (Or.inl hv)⟩
      · exact ⟨_, rfl, (mem_setAdd es v0 v).mpr (Or.inr hv)⟩
  · rw [if_neg h]
    simp [h]

theorem edgesNodup_graphEnsure (G : List (String × List String)) (k0 : String)
    (h : edgesNodup G) : edgesNodup (graphEnsure G k0) := by
  intro k es hk
  by_cases hkk : k = k0
  · subst hkk
    rw [dictLookup_graphEnsure_self] at hk
    cases hG : dictLookup G k with
    | some es2 =>
      rw [hG, Option.getD_some, Option.some.injEq] at hk
      exact hk ▸ h k es2 hG
    | none =>
      rw [hG, Option.getD_none, Option.some.injEq] at hk
      exact hk ▸ List.nodup_nil
  · rw [dictLookup_graphEnsure_ne _ _ _ hkk] at hk
    exact h k es hk

theorem edgesNodup_graphAdd (G : List (String × List String)) (k0 v0 : String)
    (h : edgesNodup G) : edgesNodup (graphAdd G k0 v0) := by
  intro k es hk
  rw [dictLookup_graphAdd] at hk
  by_cases hkk : k = k0
  · rw [if_pos hkk] at hk
    cases hG : dictLookup G k0 with
    | none => rw [hG] at hk; exact absurd hk (by simp)
    | some es2 =>
      rw [hG] at hk
      have hk2 : some (if es2.contains v0 then es2 else es2 ++ [v0]) = some es := hk
      rw [Option.some.injEq] at hk2
      subst hk2
      by_cases hc : es2.contains v0
      · rw [if_pos hc]
        exact h k0 es2 hG
      · rw [if_neg hc, ← List.concat_eq_append]
        exact List.Nodup.concat (fun hm => hc (List.elem_iff.mpr hm)) (h k0 es2 hG)
  · rw [if_neg hkk] at hk
    exact h k es hk

/-- Claim C2: takeAction inserts an edge exactly when the action is in the
fixed movement vocabulary and the derived location changed; the edge is the
string `action -> newLocation` under the prior location's key; repetition
adds no duplicate (edge sets stay duplicate-free); and neither takeAction
nor save nor load ever removes an edge (save and load leave the graph
untouched). -/
theorem exploration_edge_insertion {σ : Type}
    (stepE : σ → String → Except String (σ × Transition))
    (g : GameState σ) (a : String) (g2 : GameState σ) (r : String)
    (h : take_action stepE g a = .ok (g2, r)) :
    (∀ loc e, hasEdge g2.explored_locations loc e ↔
      (hasEdge g.explored_locations loc e ∨
        (movementActions.contains a ∧ extract_location r ≠ g.current_location ∧
         loc = g.current_location ∧ e = a ++ " -> " ++ extract_location r)))
    ∧ (edgesNodup g.explored_locations → edgesNodup g2.explored_locations)
    ∧ (∀ slot, ((save_game g slot).1).explored_locations = g.explored_locations)
    ∧ (∀ slot g3 m, load_game stepE g slot = .ok (g3, m) →
        g3.explored_locations = g.explored_locations) := by
  cases hs : stepE g.env a with
  | error e => rw [take_action, hs] at h; exact absurd h (by simp)
  | ok p =>
    obtain ⟨e2, t⟩ := p
    rw [take_action_ok stepE g a e2 t hs, Except.ok.injEq, Prod.mk.injEq] at h
    obtain ⟨hg2, hr⟩ := h
    subst hg2
    subst hr
    refine ⟨?_, ?_, ?_, ?_⟩
    · intro loc e
      simp only [stepState]
      by_cases hmov : movementActions.contains a
      · rw [if_pos hmov]
        by_cases hloc : extract_location t.observation = g.current_location
        · rw [if_pos hloc, hasEdge_graphEnsure]
          simp [hloc]
        · rw [if_neg hloc,
            hasEdge_graphAdd _ _ _ _ _ (by rw [dictLookup_graphEnsure_self]; rfl),
            hasEdge_graphEnsure]
          simp [hloc, List.elem_iff.mp hmov]
      · rw [if_neg hmov]
        have hnm : ¬ a ∈ movementActions := fun hm => hmov (List.elem_iff.mpr hm)
        simp [hnm]
    · intro hnd
      simp only [stepState]
      by_cases hmov : movementActions.contains a
      · rw [if_pos hmov]
        by_cases hloc : extract_location t.observation = g.current_location
        · rw [if_pos hloc]
          exact edgesNodup_graphEnsure _ _ hnd
        · rw [if_neg hloc]
          exact edgesNodup_graphAdd _ _ _ (edgesNodup_graphEnsure _ _ hnd)
      · rwa [if_neg hmov]
    · intro slot
      rfl
    · intro slot g3 m hload
      cases hslot : dictLookup g.saved_states slot with
      | none =>
        rw [load_game_missing stepE g slot hslot, Except.ok.injEq, Prod.mk.injEq] at hload
        rw [← hload.1]
      | some saved =>
        cases hlook : stepE saved "look" with
        | error e =>
          rw [load_game_fail stepE g slot saved hslot e hlook,
            Except.ok.injEq, Prod.mk.injEq] at hload
          rw [← hload.1]
        | ok p2 =>
          obtain ⟨e3, t3⟩ := p2
          rw [load_game_ok stepE g slot saved hslot e3 t3 hlook,
            Except.ok.injEq, Prod.mk.injEq] at hload
          rw [← hload.1]

/-- Concrete session used by several witnesses: fresh at West of House with a
one-transition script leading to Kitchen. -/
def wG0 : GameState (List Transition) := initSession (mkT "West of House") [mkT "Kitchen"]

/-- The session after moving north in `wG0`. -/
def wG1 : GameState (List Transition) := stepState wG0 "north" [] (mkT "Kitchen")

/-- Witness for C2 at a concrete movement step. -/
theorem exploration_edge_insertion_witness :
    take_action scriptStep wG0 "north" = .ok (wG1, "Kitchen") ∧
    hasEdge wG1.explored_locations "West of House" "north -> Kitchen" := by
  have h : take_action scriptStep wG0 "north" = .ok (wG1, "Kitchen") := by decide
  refine ⟨h, ?_⟩
  exact ((exploration_edge_insertion scriptStep wG0 "north" wG1 "Kitchen" h).1
    "West of House" "north -> Kitchen").mpr
    (Or.inr ⟨by decide, by decide, rfl, by decide⟩)

theorem intercalate_go_append (s : String) (l : List String) :
    ∀ acc : String, ∃ r : String, String.intercalate.go acc s l = acc ++ r := by
  induction l with
  | nil =>
    intro acc
    exact ⟨"", by rw [String.append_empty]; rfl⟩
  | cons a as ih =>
    intro acc
    obtain ⟨r, hr⟩ := ih (acc ++ s ++ a)
    refine ⟨s ++ a ++ r, ?_⟩
    have hgo : String.intercalate.go acc s (a :: as) =
        String.intercalate.go (acc ++ s ++ a) s as := rfl
    rw [hgo, hr]
    simp [String.append_assoc]

theorem intercalate_explored_ne (l : List String) :
    String.intercalate "\n" ("Explored Locations and Exits:" :: l) ≠
      "Map: No locations explored yet. Try moving around!" := by
  obtain ⟨r, hr⟩ := intercalate_go_append "\n" l "Explored Locations and Exits:"
  have hx : String.intercalate "\n" ("Explored Locations and Exits:" :: l) =
      String.intercalate.go "Explored Locations and Exits:" "\n" l := rfl
  rw [hx, hr]
  intro heq
  have hd := congrArg String.data heq
  rw [String.data_append] at hd
  have h0 := congrArg List.head? hd
  rw [List.head?_append] at h0
  have h1 : (("Explored Locations and Exits:" : String).data).head? = some 'E' := rfl
  have h2 : (("Map: No locations explored yet. Try moving around!" : String).data).head? =
      some 'M' := rfl
  rw [h1, h2, Option.or_some] at h0
  injection h0 with h3
  exact absurd h3 (by decide)

theorem graphEnsure_ne_nil (G : List (String × List String)) (k : String) :
    graphEnsure G k ≠ [] := by
  unfold graphEnsure
  by_cases h : (dictLookup G k).isSome
  · rw [if_pos h]
    intro hG
    rw [hG] at h
    simp [dictLookup] at h
  · rw [if_neg h]
    simp

theorem graphAdd_ne_nil (G : List (String × List String)) (k v : String)
    (h : G ≠ []) : graphAdd G k v ≠ [] := by
  unfold graphAdd
  simpa using h

theorem get_map_nonempty_ne {σ : Type} (g : GameState σ)
    (h : g.explored_locations ≠ []) :
    get_map g ≠ "Map: No locations explored yet. Try moving around!" := by
  unfold get_map
  rw [if_neg (by simpa [List.isEmpty_iff] using h)]
  exact intercalate_explored_ne _

/-- Claim C10: after any takeAction whose action is a movement action, the
location the action was issued from is a key of the exploration graph even
when the derived location did not change (if the key was absent it now maps
to the empty edge set), so one failed movement suffices to make getMap
return the explored-locations rendering rather than the fixed
"no locations explored" message. -/
theorem movement_records_key {σ : Type}
    (stepE : σ → String → Except String (σ × Transition))
    (g : GameState σ) (a : String) (g2 : GameState σ) (r : String)
    (hstep : take_action stepE g a = .ok (g2, r))
    (hmov : movementActions.contains a) :
    (dictLookup g2.explored_locations g.current_location).isSome
    ∧ (extract_location r = g.current_location →
        dictLookup g.explored_locations g.current_location = none →
        dictLookup g2.explored_locations g.current_location = some [])
    ∧ get_map g2 ≠ "Map: No locations explored yet. Try moving around!" := by
  cases hs : stepE g.env a with
  | error e =>
    rw [take_action, hs] at hstep
    exact absurd hstep (by simp)
  | ok p =>
    obtain ⟨e2, t⟩ := p
    rw [take_action_ok stepE g a e2 t hs, Except.ok.injEq, Prod.mk.injEq] at hstep
    obtain ⟨hg2, hr⟩ := hstep
    subst hg2
    subst hr
    refine ⟨?_, ?_, ?_⟩
    · simp only [stepState]
      rw [if_pos hmov]
      by_cases hloc : extract_location t.observation = g.current_location
      · rw [if_pos hloc, dictLookup_graphEnsure_self]
        rfl
      · rw [if_neg hloc, dictLookup_graphAdd, if_pos rfl, dictLookup_graphEnsure_self]
        rfl
    · intro hloceq hnone
      simp only [stepState]
      rw [if_pos hmov, if_pos hloceq, dictLookup_graphEnsure_self, hnone]
      rfl
    · apply get_map_nonempty_ne
      simp only [stepState]
      rw [if_pos hmov]
      by_cases hloc : extract_location t.observation = g.current_location
      · rw [if_pos hloc]
        exact graphEnsure_ne_nil _ _
      · rw [if_neg hloc]
        exact graphAdd_ne_nil _ _ _ (graphEnsure_ne_nil _ _)

/-- A fresh session at West of House whose next step observes the same
location: a failed movement attempt. -/
def wGf : GameState (List Transition) := initSession (mkT "West of House") [mkT "West of House"]

/-- The session after the failed `north` in `wGf`. -/
def wGf2 : GameState (List Transition) := stepState wGf "north" [] (mkT "West of House")

/-- Witness for C10 at a concrete failed movement. -/
theorem movement_records_key_witness :
    take_action scriptStep wGf "north" = .ok (wGf2, "West of House") ∧
    movementActions.contains "north" = true ∧
    dictLookup wGf2.explored_locations "West of House" = some [] ∧
    get_map wGf2 ≠ "Map: No locations explored yet. Try moving around!" := by
  have h : take_action scriptStep wGf "north" = .ok (wGf2, "West of House") := by decide
  have hm := movement_records_key scriptStep wGf "north" wGf2 "West of House" h (by decide)
  exact ⟨h, by decide, by decide, hm.2.2⟩

/-- Claim C7: load with an absent slot name returns the NotFound report as
text without raising, and returns the session completely unchanged: engine
state, current transition, current location, history and exploration graph
are all unmutated. -/
theorem load_missing_slot_noop {σ : Type}
    (stepE : σ → String → Except String (σ × Transition)) (g : GameState σ)
    (slot : String) (h : dictLookup g.saved_states slot = none) :
    load_game stepE g slot =
      .ok (g, "Error: No save found in slot \x27" ++ slot ++ "\x27") :=
  load_game_missing stepE g slot h

/-- Witness for C7 on a fresh session. -/
theorem load_missing_slot_noop_witness :
    dictLookup wG0.saved_states "missing" = none ∧
    load_game scriptStep wG0 "missing" =
      .ok (wG0, "Error: No save found in slot \x27missing\x27") :=
  ⟨rfl, load_missing_slot_noop scriptStep wG0 "missing" rfl⟩

theorem dictLookup_map_update {α : Type} (d : List (String × α)) (k : String) (v : α) :
    dictLookup (d.map (fun p => if p.1 = k then (k, v) else p)) k =
      (dictLookup d k).map (fun _ => v) := by
  induction d with
  | nil => rfl
  | cons p rest ih =>
    obtain ⟨k1, v1⟩ := p
    rw [List.map_cons]
    by_cases h : k1 = k
    · have hh : (if (k1, v1).1 = k then (k, v) else (k1, v1)) = (k, v) := if_pos h
      rw [hh, dictLookup_cons, if_pos rfl, dictLookup_cons, if_pos h]
      rfl
    · have hh : (if (k1, v1).1 = k then (k, v) else (k1, v1)) = (k1, v1) := if_neg h
      rw [hh, dictLookup_cons, if_neg h, dictLookup_cons, if_neg h, ih]

theorem dictLookup_dictInsert_self {α : Type} (d : List (String × α)) (k : String)
    (v : α) : dictLookup (dictInsert d k v) k = some v := by
  unfold dictInsert
  by_cases h : (dictLookup d k).isSome
  · rw [if_pos h, dictLookup_map_update]
    obtain ⟨w, hw⟩ := Option.isSome_iff_exists.mp h
    rw [hw]
    rfl
  · rw [if_neg h, dictLookup_append, Option.not_isSome_iff_eq_none.mp h,
      Option.none_or, dictLookup_cons, if_pos rfl]

/-- Claim C8: for every session state, save to a slot followed immediately by
load of that slot leaves currentLocation and score unchanged, assuming the
engine round-trips its state through getState/setState (built into the
model) and the synchronizing look step changes neither the score nor the
observation's first line. -/
theorem save_load_roundtrip {σ : Type}
    (stepE : σ → String → Except String (σ × Transition)) (g : GameState σ)
    (slot : String) (e2 : σ) (t : Transition)
    (hlook : stepE g.env "look" = .ok (e2, t))
    (hscore : t.score = g.state.score)
    (hloc : extract_location t.observation = g.current_location) :
    ∃ g2 m, load_game stepE (save_game g slot).1 slot = .ok (g2, m) ∧
      g2.current_location = g.current_location ∧
      g2.state.score = g.state.score := by
  have hlookup : dictLookup ((save_game g slot).1).saved_states slot = some g.env :=
    dictLookup_dictInsert_self g.saved_states slot g.env
  refine ⟨_, _, load_game_ok stepE (save_game g slot).1 slot g.env hlookup e2 t hlook,
    ?_, ?_⟩
  · exact hloc
  · exact hscore

/-- Witness for C8: a session whose scripted look observes the same location
and score. -/
theorem save_load_roundtrip_witness :
    scriptStep wGf.env "look" = .ok ([], mkT "West of House") ∧
    (mkT "West of House").score = wGf.state.score ∧
    extract_location (mkT "West of House").observation = wGf.current_location ∧
    (∃ g2 m, load_game scriptStep (save_game wGf "a").1 "a" = .ok (g2, m) ∧
      g2.current_location = wGf.current_location ∧
      g2.state.score = wGf.state.score) :=
  ⟨rfl, rfl, rfl,
   save_load_roundtrip scriptStep wGf "a" [] (mkT "West of House") rfl rfl rfl⟩

/-- An engine whose every step call raises. -/
def failStep : Unit → String → Except String (Unit × Transition) :=
  fun _ _ => .error "boom"

/-- A session holding one saved slot "a", against the failing engine. -/
def wGs : GameState Unit :=
  { env := (), state := mkT "Start", history := [], explored_locations := [],
    current_location := "Start", saved_states := [("a", ())] }

/-- Counterexample to C6 as stated: when the synchronizing look step of load
raises, the failure is caught and returned as error text (an ok result), not
propagated as a raised hard failure. -/
theorem load_look_failure_counterexample :
    load_game failStep wGs "a" =
      .ok (wGs, "Error loading game from slot \x27a\x27: boom") := by decide

/-- Claim C6 (amended): an engine failure during takeAction propagates to the
caller unchanged, but a failure of load's synchronizing look step after a
successful state restore is caught and converted into a returned error-text
response. -/
theorem engine_failure_propagation {σ : Type}
    (stepE : σ → String → Except String (σ × Transition)) (g : GameState σ)
    (a e slot : String) (saved : σ) (e2 : String) :
    (stepE g.env a = .error e → take_action stepE g a = .error e) ∧
    (dictLookup g.saved_states slot = some saved →
      stepE saved "look" = .error e2 →
      load_game stepE g slot = .ok ({ g with env := saved },
        "Error loading game from slot \x27" ++ slot ++ "\x27: " ++ e2)) := by
  constructor
  · intro h
    rw [take_action, h]
  · intro h1 h2
    exact load_game_fail stepE g slot saved h1 e2 h2

/-- Witness for C6 with the failing engine. -/
theorem engine_failure_propagation_witness :
    take_action failStep wGs "north" = .error "boom" ∧
    load_game failStep wGs "a" = .ok ({ wGs with env := () },
      "Error loading game from slot \x27a\x27: boom") :=
  ⟨(engine_failure_propagation failStep wGs "north" "boom" "a" () "boom").1 rfl,
   (engine_failure_propagation failStep wGs "north" "boom" "a" () "boom").2 rfl rfl⟩

/-- Counterexample to C3 as stated: the descriptor from the spec does not
parse to "lamp". -/
theorem inventory_lamp_counterexample :
    parse_item "lamp:Object#123 parent:room" ≠ "lamp" := by decide

/-- A session whose current transition carries exactly the inventory
descriptor of claim C3. -/
def wGi : GameState Unit :=
  { env := (),
    state := { observation := "West of House", score := 0, moves := 0,
               reward := 0, done := false,
               inventory := ["lamp:Object#123 parent:room"] },
    history := [], explored_locations := [], current_location := "West of House",
    saved_states := [] }

/-- Claim C3 (amended): for the descriptor "lamp:Object#123 parent:room" the
parser takes the text before "parent", which still contains a colon, so it
keeps the text after that colon: the display name is "Object#123", and
getInventory renders it accordingly. -/
theorem inventory_lamp_value :
    parse_item "lamp:Object#123 parent:room" = "Object#123" ∧
    get_inventory wGi = "Inventory: Object#123" := ⟨by decide, by decide⟩

/-- Counterexample to C9 as stated: a first line with trailing whitespace
followed by more text keeps its trailing whitespace, differing from the
spec's "first non-empty line, trimmed" rule. -/
theorem extract_location_counterexample :
    extract_location "West of House \nlemon" = "West of House " ∧
    specDerivedLocation "West of House \nlemon" = "West of House" ∧
    extract_location "West of House \nlemon" ≠
      specDerivedLocation "West of House \nlemon" := ⟨by decide, by decide, by decide⟩

theorem splitChar_cons_head (c : Char) (cs : List Char) :
    ∃ t, splitChar c cs = (cs.takeWhile (fun a => a != c)) :: t := by
  induction cs with
  | nil => exact ⟨[], rfl⟩
  | cons a rest ih =>
    obtain ⟨t, ht⟩ := ih
    by_cases h : a = c
    · refine ⟨splitChar c rest, ?_⟩
      simp [splitChar, h, List.takeWhile_cons]
    · refine ⟨t, ?_⟩
      simp [splitChar, h, ht, List.takeWhile_cons]

/-- Claim C9 (amended): the derived location is the first line of the
observation after stripping whitespace from both ends of the whole text:
leading blank lines and leading whitespace are removed, but trailing
whitespace inside the first kept line survives when later text follows. -/
theorem extract_location_first_line (s : String) :
    extract_location s = ⟨(pyStrip s.data).takeWhile (fun a => a != '\n')⟩ := by
  unfold extract_location
  obtain ⟨t, ht⟩ := splitChar_cons_head '\n' (pyStrip s.data)
  rw [ht]

/-- Counterexample to C4 as stated: with two colons and no "parent", the
parser returns only the text between the first and second colons, not all
the text after the first colon. -/
theorem colon_split_counterexample :
    subIndex ("parent".data) ("sword:blade:steel".data.map Char.toLower) = none ∧
    "sword:blade:steel".data.contains ':' = true ∧
    parse_item "sword:blade:steel" = "blade" ∧
    specColonName "sword:blade:steel" = "blade:steel" ∧
    parse_item "sword:blade:steel" ≠ specColonName "sword:blade:steel" := by
  refine ⟨by decide, by decide, by decide, by decide, by decide⟩

theorem splitChar_not_mem (c : Char) (cs : List Char) (h : ¬ c ∈ cs) :
    splitChar c cs = [cs] := by
  induction cs with
  | nil => rfl
  | cons a rest ih =>
    have ha : ¬ a = c := fun hh => h (hh ▸ List.mem_cons_self a rest)
    have hr : ¬ c ∈ rest := fun hh => h (List.mem_cons_of_mem a hh)
    simp only [splitChar, if_neg ha, ih hr]

theorem splitChar_append_sep (c : Char) (xs rest : List Char) (h : ¬ c ∈ xs) :
    splitChar c (xs ++ c :: rest) = xs :: splitChar c rest := by
  induction xs with
  | nil => simp [splitChar]
  | cons a xs2 ih =>
    have ha : ¬ a = c := fun hh => h (hh ▸ List.mem_cons_self a xs2)
    have hx : ¬ c ∈ xs2 := fun hh => h (List.mem_cons_of_mem a hh)
    simp [splitChar, ha, ih hx]

theorem parse_item_no_parent (s : String)
    (h : subIndex ("parent".data) (s.data.map Char.toLower) = none) :
    parse_item s =
      (if s.data.contains ':' then ⟨pyStrip ((splitChar ':' s.data).getD 1 [])⟩
       else s) := by
  simp only [parse_item]
  split
  · next idx heq =>
    rw [h] at heq
    exact absurd heq (by simp)
  · next heq => rfl

theorem data_append_colon (a b : String) :
    (a ++ ":" ++ b).data = a.data ++ ':' :: b.data := by
  rw [String.data_append, String.data_append]
  simp

/-- Claim C4 (amended): for a descriptor whose lowercase lacks "parent" and
that contains colons, the parser returns the trimmed text between the first
and the second colon; when only one colon is present this is the trimmed
text after it. -/
theorem parse_item_between_colons (a b c : String)
    (hpar2 : subIndex ("parent".data)
      ((a ++ ":" ++ b ++ ":" ++ c).data.map Char.toLower) = none)
    (hpar1 : subIndex ("parent".data)
      ((a ++ ":" ++ b).data.map Char.toLower) = none)
    (ha : ¬ ':' ∈ a.data) (hb : ¬ ':' ∈ b.data) :
    parse_item (a ++ ":" ++ b ++ ":" ++ c) = ⟨pyStrip b.data⟩ ∧
    parse_item (a ++ ":" ++ b) = ⟨pyStrip b.data⟩ := by
  have hd2 : (a ++ ":" ++ b ++ ":" ++ c).data =
      a.data ++ ':' :: (b.data ++ ':' :: c.data) := by
    rw [data_append_colon (a ++ ":" ++ b) c, data_append_colon a b]
    simp
  have hd1 : (a ++ ":" ++ b).data = a.data ++ ':' :: b.data := data_append_colon a b
  constructor
  · rw [parse_item_no_parent _ hpar2, hd2]
    rw [if_pos (List.elem_iff.mpr
      (List.mem_append.mpr (Or.inr (List.mem_cons_self _ _))))]
    rw [splitChar_append_sep ':' a.data _ ha, splitChar_append_sep ':' b.data _ hb]
    rfl
  · rw [parse_item_no_parent _ hpar1, hd1]
    rw [if_pos (List.elem_iff.mpr
      (List.mem_append.mpr (Or.inr (List.mem_cons_self _ _))))]
    rw [splitChar_append_sep ':' a.data _ ha, splitChar_not_mem ':' b.data hb]
    rfl

/-- Witness for C4 on the descriptors sword: blade :steel and sword: blade . -/
theorem parse_item_between_colons_witness :
    (subIndex ("parent".data)
      (("sword" ++ ":" ++ " blade " ++ ":" ++ "steel").data.map Char.toLower) = none) ∧
    (subIndex ("parent".data)
      (("sword" ++ ":" ++ " blade ").data.map Char.toLower) = none) ∧
    (¬ ':' ∈ ("sword" : String).data) ∧ (¬ ':' ∈ (" blade " : String).data) ∧
    (parse_item ("sword" ++ ":" ++ " blade " ++ ":" ++ "steel") =
        ⟨pyStrip (" blade " : String).data⟩ ∧
      parse_item ("sword" ++ ":" ++ " blade ") = ⟨pyStrip (" blade " : String).data⟩) :=
  ⟨by decide, by decide, by decide, by decide,
   parse_item_between_colons "sword" " blade " "steel"
     (by decide) (by decide) (by decide) (by decide)⟩

/-- Counterexample to C5 as stated: a dictionary containing exactly "xyzzy"
yields the negative report for "xyzzyqq", because "xyzzy" does not start
with the word's 6-character prefix "xyzzyq". -/
theorem vocab_xyzzy_counterexample :
    check_vocabulary ["xyzzy"] "xyzzyqq" =
      "No, the game does NOT understand the word \x27xyzzyqq\x27. Try a different synonym." ∧
    check_vocabulary ["xyzzy"] "xyzzyqq" ≠
      "Yes, the game understands \x27xyzzyqq\x27 (matches: xyzzy)." :=
  ⟨by decide, by decide⟩

/-- Claim C5 (amended): checkVocabulary reports positively exactly for
dictionary tokens extending the first 6 lowercase characters of the word:
any dictionary with no such token (including one containing only "xyzzy",
for the word "xyzzyqq") gets the negative report, while a token such as
"xyzzyq" produces the positive report listing it. -/
theorem check_vocabulary_prefix_report (vocab : List String) (word : String)
    (h : ∀ w ∈ vocab, ¬ ((word.data.map Char.toLower).take 6).isPrefixOf w.data) :
    check_vocabulary vocab word =
      "No, the game does NOT understand the word \x27" ++ word ++
        "\x27. Try a different synonym." ∧
    check_vocabulary ["xyzzyq"] "xyzzyqq" =
      "Yes, the game understands \x27xyzzyqq\x27 (matches: xyzzyq)." ∧
    check_vocabulary ["xyzzy"] "xyzzyqq" =
      "No, the game does NOT understand the word \x27xyzzyqq\x27. Try a different synonym." := by
  refine ⟨?_, by decide, by decide⟩
  simp only [check_vocabulary]
  rw [List.filter_eq_nil_iff.mpr (fun w hw => by simpa using h w hw)]
  rfl

/-- Witness for C5 on a dictionary with no matching token. -/
theorem check_vocabulary_prefix_report_witness :
    (∀ w ∈ (["zork"] : List String),
      ¬ (("xyzzyqq".data.map Char.toLower).take 6).isPrefixOf w.data) ∧
    (check_vocabulary ["zork"] "xyzzyqq" =
      "No, the game does NOT understand the word \x27xyzzyqq\x27. Try a different synonym." ∧
    check_vocabulary ["xyzzyq"] "xyzzyqq" =
      "Yes, the game understands \x27xyzzyqq\x27 (matches: xyzzyq)." ∧
    check_vocabulary ["xyzzy"] "xyzzyqq" =
      "No, the game does NOT understand the word \x27xyzzyqq\x27. Try a different synonym.") :=
  ⟨by decide, check_vocabulary_prefix_report ["zork"] "xyzzyqq" (by decide)⟩

end ZorkMCP
